import Mathlib

/-
Verification of the feature-normalization and risk-aggregation pipeline of
the storage failure-prediction frontend (frontend/script.js).

Numbers are embedded as rationals (ℚ): every quantity the verified code
manipulates (telemetry values, percentages, scale maxima) stays within
exactly-representable ranges, and the arithmetic involved is +, *, /, min
and 2-decimal rounding.  JavaScript strings are embedded as Lean strings;
the regex-based label transformations are embedded as explicit character
scans matching the regexes used in the source.
-/

/-- JS whitespace class \s, restricted to the ASCII members (the labels this
program produces only ever contain ordinary spaces). -/
def jsWhitespace (c : Char) : Bool :=
  c = ' ' || c = '\t' || c = '\n' || c = '\r' || c = '\x0b' || c = '\x0c'

/-- JS word-character class \w : letters, digits and underscore. -/
def wordChar (c : Char) : Bool :=
  c.isAlphanum || c = '_'

/-- Embeds `formatted.replace(/\b\w/g, l => l.toUpperCase())` (script.js
line 63): uppercase every word character whose predecessor is not a word
character.  The Bool argument records whether the previous character was a
word character (false at the start of the string). -/
def capWords : List Char → Bool → List Char
  | [], _ => []
  | c :: rest, prevWord =>
      (if !prevWord && wordChar c then c.toUpper else c) :: capWords rest (wordChar c)

/-- Embeds `formatted.replace('Tb', 'TB')` (script.js line 66).  A JS
`String.prototype.replace` with a string pattern replaces only the FIRST
occurrence. -/
def replaceFirstTb : List Char → List Char
  | [] => []
  | 'T' :: 'b' :: rest => 'T' :: 'B' :: rest
  | c :: rest => c :: replaceFirstTb rest

/-- Embeds `formatted.replace(/ C(?=\s|$)/g, ' (°C)')` (script.js line 69):
every occurrence of a space followed by 'C' that is followed by whitespace
or the end of the string becomes " (°C)".  The lookahead consumes nothing,
so scanning resumes right after the 'C'. -/
def tempSuffix : List Char → List Char
  | ' ' :: 'C' :: rest =>
      if (match rest with | [] => true | c :: _ => jsWhitespace c) then
        ' ' :: '(' :: '°' :: 'C' :: ')' :: tempSuffix rest
      else
        ' ' :: 'C' :: tempSuffix rest
  | c :: rest => c :: tempSuffix rest
  | [] => []

/-- Embeds `formatLabel` (script.js lines 58-72): underscores to spaces,
capitalize word starts, first "Tb" to "TB", then the temperature suffix. -/
def formatLabel (text : String) : String :=
  String.mk (tempSuffix (replaceFirstTb
    (capWords (text.data.map fun c => if c = '_' then ' ' else c) false)))

/-- Length of the maximal whitespace run at the head of the list. -/
def wsRunLen : List Char → Nat
  | c :: rest => if jsWhitespace c then wsRunLen rest + 1 else 0
  | [] => 0

/-- Embeds `featureLabel.replace(/\s*\(°C\)/g, ' C')` (script.js line 181):
a maximal (greedy) whitespace run followed by the literal "(°C)" is
replaced by " C".  When the run is not followed by "(°C)" no shorter run
can match either (backtracking re-tests '(' against a whitespace
character), so the scan advances one character. -/
def stripDegCAux : Nat → List Char → List Char
  | 0, l => l
  | _ + 1, [] => []
  | fuel + 1, c :: rest =>
      if ((c :: rest).drop (wsRunLen (c :: rest))).take 4 = ['(', '°', 'C', ')'] then
        ' ' :: 'C' :: stripDegCAux fuel ((c :: rest).drop (wsRunLen (c :: rest) + 4))
      else
        c :: stripDegCAux fuel rest

/-- The scan consumes at least one character per step, so fuel equal to the
length of the list is never exhausted; the fuel only makes the recursion
structural. -/
def stripDegC (l : List Char) : List Char :=
  stripDegCAux l.length l

/-- Embeds `.replace(/\s+/g, '_')` (script.js line 181): each maximal
whitespace run becomes a single underscore. -/
def wsToUnderscoreAux : Nat → List Char → List Char
  | 0, l => l
  | _ + 1, [] => []
  | fuel + 1, c :: rest =>
      if jsWhitespace c then
        '_' :: wsToUnderscoreAux fuel (rest.dropWhile fun d => jsWhitespace d)
      else c :: wsToUnderscoreAux fuel rest

/-- Fuel equal to the length of the list is never exhausted (each step
consumes at least one character); it only makes the recursion structural. -/
def wsToUnderscore (l : List Char) : List Char :=
  wsToUnderscoreAux l.length l

/-- Embeds the label-to-key chain of `getOriginalValueFromNormalized`
(script.js line 181): strip the degree suffix, whitespace runs to
underscores, lowercase.  The two trailing
`.replace('tbw_tb','tbw_tb').replace('tbr_tb','tbr_tb')` calls replace a
string by itself and are identities. -/
def labelToKey (featureLabel : String) : String :=
  String.mk ((wsToUnderscore (stripDegC featureLabel.data)).map Char.toLower)

/-- The scale table of `normalizeFeatureValue` (script.js lines 162-173),
keyed by the catalog feature names. -/
def maxValuesNorm : List (String × ℚ) :=
  [("Power_On_Hours", 60000), ("Total_TBW_TB", 1000), ("Total_TBR_TB", 800),
   ("Temperature_C", 90), ("Percent_Life_Used", 150), ("Media_Errors", 10),
   ("Unsafe_Shutdowns", 10), ("CRC_Errors", 5), ("Read_Error_Rate", 20),
   ("Write_Error_Rate", 15)]

/-- The scale table of `getOriginalValueFromNormalized` (script.js lines
183-194), keyed by lowercase names. -/
def maxValuesDenorm : List (String × ℚ) :=
  [("power_on_hours", 60000), ("total_tbw_tb", 1000), ("total_tbr_tb", 800),
   ("temperature_c", 90), ("percent_life_used", 150), ("media_errors", 10),
   ("unsafe_shutdowns", 10), ("crc_errors", 5), ("read_error_rate", 20),
   ("write_error_rate", 15)]

/-- The catalog's declared feature order: the key order of the scale table
(the same order used by the sample data and the input form). -/
def catalogFeatures : List String := maxValuesNorm.map Prod.fst

/-- Embeds the JS idiom `maxValues[featureName] || 100`: a missing entry
(undefined) falls back to 100, and so would a 0 entry, since 0 is falsy. -/
def jsOr100 : Option ℚ → ℚ
  | some v => if v = 0 then 100 else v
  | none => 100

/-- Core of `normalizeFeatureValue` (script.js lines 156-177) once the
feature name has been resolved: `Math.min((value / maxValue) * 100, 100)`
with `maxValue = maxValues[featureName] || 100`. -/
def normalizeByName (value : ℚ) (featureName : Option String) : ℚ :=
  min ((value / jsOr100 (featureName.bind fun n => maxValuesNorm.lookup n)) * 100) 100

/-- Embeds `normalizeFeatureValue(value, index)` (script.js lines 156-177):
the feature name is `Object.keys(featureDefaults)[index]` (undefined when
the index is out of range, which also falls back to max 100). -/
def normalizeFeatureValue (value : ℚ) (featureNames : List String) (index : ℕ) : ℚ :=
  normalizeByName value (featureNames.get? index)

/-- Embeds `Number.prototype.toFixed(2)` for nonnegative arguments (the
only ones this program passes): round to the nearest multiple of 1/100,
half up. -/
def toFixed2 (q : ℚ) : ℚ :=
  ((Int.floor (q * 100 + 1 / 2) : ℤ) : ℚ) / 100

/-- Embeds `getOriginalValueFromNormalized` (script.js lines 179-198): map
the display label back to a key, look up the lowercase scale table with
the same `|| 100` fallback, and return `((normalized/100)*maxValue)`
rounded to 2 decimals (the JS code renders it with toFixed(2)). -/
def getOriginalValueFromNormalized (normalizedValue : ℚ) (featureLabel : String) : ℚ :=
  toFixed2 ((normalizedValue / 100) *
    jsOr100 (maxValuesDenorm.lookup (labelToKey featureLabel)))

/-- Embeds the status-class banding of `displaySummary` (script.js lines
413-415): the class is assigned "status-healthy", then overwritten by
"status-warning" when `overall_risk > 50`, then by "status-danger" when
`overall_risk > 70`; the last write wins. -/
def classifyStatus (overall_risk : ℚ) : String :=
  if overall_risk > 70 then "status-danger"
  else if overall_risk > 50 then "status-warning"
  else "status-healthy"

/-- Embeds the icon choice of `displaySummary` (script.js line 408):
`summary.overall_risk >= 50 ? 'fa-exclamation-triangle' : 'fa-check-circle'`. -/
def summaryStatusIcon (overall_risk : ℚ) : String :=
  if overall_risk ≥ 50 then "fa-exclamation-triangle" else "fa-check-circle"

/-- A JavaScript number as produced by `parseFloat`: NaN, an infinity, or a
finite value (embedded as a rational). -/
inductive JSNum where
  | nan : JSNum
  | posInf : JSNum
  | negInf : JSNum
  | num : ℚ → JSNum
deriving DecidableEq

/-- JS `isNaN` on a number. -/
def jsIsNaN : JSNum → Bool
  | .nan => true
  | _ => false

/-- JS `isFinite` on a number. -/
def jsIsFinite : JSNum → Bool
  | .num _ => true
  | _ => false

/-- Embeds `collectInputData` (script.js lines 369-379): each field's
parsed value is taken as-is unless it is NaN, in which case it is silently
replaced by 0 (`inputs[input.id] = isNaN(value) ? 0 : value`). -/
def collectInputData (raw : List (String × JSNum)) : List (String × JSNum) :=
  raw.map fun p => (p.1, if jsIsNaN p.2 then JSNum.num 0 else p.2)

/-- Embeds `validateInputs` (script.js lines 381-385): every value must be
a number (always true for a parseFloat result), not NaN, and finite.  No
sign check is performed. -/
def validateInputs (data : List (String × JSNum)) : Bool :=
  data.all fun p => !jsIsNaN p.2 && jsIsFinite p.2

/-- The validation gate of `predictAllFailures` (script.js lines 326-331):
the snapshot that reaches normalization and prediction is
`collectInputData()`, and the pipeline proceeds iff `validateInputs`
accepts it. -/
def pipelineAccepts (raw : List (String × JSNum)) : Bool :=
  validateInputs (collectInputData raw)

/-- Stable descending insertion: x goes before the first element whose
percentage is not greater than x's, so earlier-listed entries with an
equal percentage stay in front.  This is the order produced by
`Object.entries(contributions).sort((a, b) => b[1] - a[1])`
(script.js lines 531-532): ECMAScript sort is stable and the comparator
orders by value descending, leaving ties in insertion order. -/
def insertDesc (x : String × ℚ) : List (String × ℚ) → List (String × ℚ)
  | [] => [x]
  | h :: t => if x.2 < h.2 then h :: insertDesc x t else x :: h :: t

/-- Stable sort of a contributions list by percentage descending. -/
def sortContributionsDesc : List (String × ℚ) → List (String × ℚ)
  | [] => []
  | h :: t => insertDesc h (sortContributionsDesc t)

/-- Embeds the top-5 selection of `displayTopContributions` (script.js
lines 531-533): sort descending by percentage (stably) and `.slice(0, 5)`. -/
def topContributors (contributions : List (String × ℚ)) : List (String × ℚ) :=
  (sortContributionsDesc contributions).take 5

/-- Rendering outcome of the contributions panel: either the explicit
"No data available" placeholder or the ranked entries. -/
inductive ContributionsDisplay where
  | noData : ContributionsDisplay
  | items : List (String × ℚ) → ContributionsDisplay
deriving DecidableEq

/-- Embeds `displayTopContributions` (script.js lines 510-533): a missing
(`!contributions`) or empty (`Object.keys(contributions).length === 0`)
mapping renders the placeholder; otherwise the top-5 entries are shown. -/
def displayTopContributions (contributions : Option (List (String × ℚ))) :
    ContributionsDisplay :=
  match contributions with
  | none => .noData
  | some c => if c.length = 0 then .noData else .items (topContributors c)

/-- Modelled from the spec: the backend SummaryAggregator (backend/app.py,
which is not present under src/) computes
`overall_risk = max(risk_percentage across the four models)` in the fixed
model order wearout, thermal, power, controller. -/
def overallRisk (wearout thermal power controller : ℚ) : ℚ :=
  max (max (max wearout thermal) power) controller

/-- Embeds the radar dataset built by `initializeRadarCharts` (script.js
line 101) and reset by `resetForm` (script.js line 658):
`Object.values(featureDefaults).map(v => normalizeFeatureValue(v, 0))` —
every default value is normalized with index 0. -/
def initialRadarData (defaults : List (String × ℚ)) : List ℚ :=
  defaults.map fun p => normalizeFeatureValue p.2 (defaults.map Prod.fst) 0

/-- Embeds the radar update of `updateRadarChart` (script.js lines
501-503): `Object.values(inputData).map((value, index) =>
normalizeFeatureValue(value, index))` — each value is normalized with its
own positional index. -/
def updateRadarData (inputData : List (String × ℚ)) (featureNames : List String) : List ℚ :=
  (inputData.map Prod.snd).mapIdx fun index value =>
    normalizeFeatureValue value featureNames index

lemma jsOr100_lookup_pos (l : List (String × ℚ)) (f : String)
    (hpos : ∀ p ∈ l, 0 < p.2) : 0 < jsOr100 (l.lookup f) := by
  induction l with
  | nil => norm_num [jsOr100, List.lookup]
  | cons p t ih =>
      rw [List.lookup]
      cases hb : f == p.1 with
      | true =>
          have hp := hpos p (by simp)
          simp only [jsOr100]
          split
          · norm_num
          · exact hp
      | false => exact ih fun q hq => hpos q (by simp [hq])

lemma normMax_pos (o : Option String) :
    0 < jsOr100 (o.bind fun n => maxValuesNorm.lookup n) := by
  cases o with
  | none => norm_num [jsOr100, Option.bind]
  | some n =>
      simp only [Option.bind]
      exact jsOr100_lookup_pos maxValuesNorm n (by decide)

lemma normalizeByName_some (v : ℚ) (f : String) :
    normalizeByName v (some f) = min ((v / jsOr100 (maxValuesNorm.lookup f)) * 100) 100 := rfl

lemma getOriginal_eq (nv : ℚ) (label : String) :
    getOriginalValueFromNormalized nv label =
      toFixed2 ((nv / 100) * jsOr100 (maxValuesDenorm.lookup (labelToKey label))) := rfl

lemma norm_clamped_of_le (v m : ℚ) (hm : 0 < m) (h : m ≤ v) :
    min ((v / m) * 100) 100 = 100 := by
  have h1 : (1 : ℚ) ≤ v / m := (one_le_div hm).mpr h
  have h2 : (100 : ℚ) ≤ (v / m) * 100 := by nlinarith
  exact min_eq_right h2

lemma norm_exact_of_lt (v m : ℚ) (hm : 0 < m) (h : v < m) :
    min ((v / m) * 100) 100 = (v / m) * 100 := by
  have h1 : v / m < 1 := (div_lt_one hm).mpr h
  have h2 : (v / m) * 100 ≤ 100 := by nlinarith
  exact min_eq_left h2

/-- C4: for a feature resolved to scale maximum m, normalization yields 100
whenever v ≥ m, yields (v/m)*100 whenever 0 ≤ v < m, and a feature name
absent from the scale table (or an out-of-range index) falls back to the
default maximum 100; the function is total, so it never fails. -/
theorem normalizeFeatureValue_spec (featureNames : List String) (index : ℕ) (v : ℚ)
    (h0 : 0 ≤ v) :
    (jsOr100 ((featureNames.get? index).bind fun n => maxValuesNorm.lookup n) ≤ v →
      normalizeFeatureValue v featureNames index = 100) ∧
    (v < jsOr100 ((featureNames.get? index).bind fun n => maxValuesNorm.lookup n) →
      normalizeFeatureValue v featureNames index =
        (v / jsOr100 ((featureNames.get? index).bind fun n => maxValuesNorm.lookup n)) * 100) ∧
    (((featureNames.get? index).bind fun n => maxValuesNorm.lookup n) = none →
      jsOr100 ((featureNames.get? index).bind fun n => maxValuesNorm.lookup n) = 100) := by
  have hm := normMax_pos (featureNames.get? index)
  refine ⟨fun h => ?_, fun h => ?_, fun h => ?_⟩
  · unfold normalizeFeatureValue normalizeByName
    exact norm_clamped_of_le v _ hm h
  · unfold normalizeFeatureValue normalizeByName
    exact norm_exact_of_lt v _ hm h
  · rw [h]
    simp [jsOr100]

theorem normalizeFeatureValue_spec_witness :
    normalizeFeatureValue 150 ["Unknown_Feature"] 0 = 100 ∧
    normalizeFeatureValue 30000 catalogFeatures 0 = 50 := by
  constructor
  · exact (normalizeFeatureValue_spec ["Unknown_Feature"] 0 150 (by norm_num)).1 (by decide)
  · have hmax : jsOr100 ((catalogFeatures.get? 0).bind fun n => maxValuesNorm.lookup n) =
        (60000 : ℚ) := by decide
    have h := (normalizeFeatureValue_spec catalogFeatures 0 30000 (by norm_num)).2.1
      (by rw [hmax]; norm_num)
    rw [h, hmax]
    norm_num

lemma toFixed2_eq_self (q : ℚ) (n : ℤ) (h : q * 100 = n) : toFixed2 q = q := by
  unfold toFixed2
  rw [h]
  have hfl : Int.floor ((n : ℚ) + 1 / 2) = n := by
    rw [Int.floor_eq_iff]
    constructor
    · norm_num
    · norm_num
  rw [hfl, div_eq_iff (by norm_num : (100 : ℚ) ≠ 0)]
  exact h.symm

lemma roundtrip_core (v m : ℚ) (hm : 0 < m) :
    (v ≤ m → toFixed2 (min ((v / m) * 100) 100 / 100 * m) = toFixed2 v) ∧
    (m < v → toFixed2 (min ((v / m) * 100) 100 / 100 * m) = toFixed2 m) := by
  have hm0 : m ≠ 0 := ne_of_gt hm
  constructor
  · intro h
    rcases eq_or_lt_of_le h with rfl | hlt
    · rw [norm_clamped_of_le v v hm le_rfl]
      norm_num
    · rw [norm_exact_of_lt v m hm hlt]
      have : v / m * 100 / 100 * m = v := by
        field_simp
        ring
      rw [this]
  · intro h
    rw [norm_clamped_of_le v m hm (le_of_lt h)]
    norm_num

lemma roundtrip_feature (f : String)
    (hpos : 0 < jsOr100 (maxValuesNorm.lookup f))
    (hden : jsOr100 (maxValuesDenorm.lookup (labelToKey (formatLabel f))) =
      jsOr100 (maxValuesNorm.lookup f))
    (hfix : toFixed2 (jsOr100 (maxValuesNorm.lookup f)) = jsOr100 (maxValuesNorm.lookup f))
    (v : ℚ) :
    (v ≤ jsOr100 (maxValuesNorm.lookup f) →
      getOriginalValueFromNormalized (normalizeByName v (some f)) (formatLabel f) =
        toFixed2 v) ∧
    (jsOr100 (maxValuesNorm.lookup f) < v →
      getOriginalValueFromNormalized (normalizeByName v (some f)) (formatLabel f) =
        jsOr100 (maxValuesNorm.lookup f)) := by
  rw [getOriginal_eq, normalizeByName_some, hden]
  constructor
  · intro h
    exact (roundtrip_core v (jsOr100 (maxValuesNorm.lookup f)) hpos).1 h
  · intro h
    rw [(roundtrip_core v (jsOr100 (maxValuesNorm.lookup f)) hpos).2 h]
    exact hfix

lemma catalogFeatures_cases (f : String) (hf : f ∈ catalogFeatures) :
    f = "Power_On_Hours" ∨ f = "Total_TBW_TB" ∨ f = "Total_TBR_TB" ∨
    f = "Temperature_C" ∨ f = "Percent_Life_Used" ∨ f = "Media_Errors" ∨
    f = "Unsafe_Shutdowns" ∨ f = "CRC_Errors" ∨ f = "Read_Error_Rate" ∨
    f = "Write_Error_Rate" := by
  simpa [catalogFeatures, maxValuesNorm] using hf

/-- C5: for every catalog feature f with scale maximum m, denormalizing the
normalized value through the display label recovers v rounded to 2
decimals whenever 0 ≤ v ≤ m, and for v > m the round trip is lossy and
returns m (all the scale maxima are integers, so rounding does not disturb
them). -/
theorem normalize_denormalize_roundtrip (f : String) (hf : f ∈ catalogFeatures) (v : ℚ)
    (h0 : 0 ≤ v) :
    (v ≤ jsOr100 (maxValuesNorm.lookup f) →
      getOriginalValueFromNormalized (normalizeByName v (some f)) (formatLabel f) =
        toFixed2 v) ∧
    (jsOr100 (maxValuesNorm.lookup f) < v →
      getOriginalValueFromNormalized (normalizeByName v (some f)) (formatLabel f) =
        jsOr100 (maxValuesNorm.lookup f)) := by
  rcases catalogFeatures_cases f hf with rfl | rfl | rfl | rfl | rfl | rfl | rfl | rfl | rfl | rfl
  · have hm : jsOr100 (maxValuesNorm.lookup "Power_On_Hours") = (60000 : ℚ) := by decide
    exact roundtrip_feature _ (by rw [hm]; norm_num) (by decide)
      (by rw [hm]; exact toFixed2_eq_self _ 6000000 (by norm_num)) v
  · have hm : jsOr100 (maxValuesNorm.lookup "Total_TBW_TB") = (1000 : ℚ) := by decide
    exact roundtrip_feature _ (by rw [hm]; norm_num) (by decide)
      (by rw [hm]; exact toFixed2_eq_self _ 100000 (by norm_num)) v
  · have hm : jsOr100 (maxValuesNorm.lookup "Total_TBR_TB") = (800 : ℚ) := by decide
    exact roundtrip_feature _ (by rw [hm]; norm_num) (by decide)
      (by rw [hm]; exact toFixed2_eq_self _ 80000 (by norm_num)) v
  · have hm : jsOr100 (maxValuesNorm.lookup "Temperature_C") = (90 : ℚ) := by decide
    exact roundtrip_feature _ (by rw [hm]; norm_num) (by decide)
      (by rw [hm]; exact toFixed2_eq_self _ 9000 (by norm_num)) v
  · have hm : jsOr100 (maxValuesNorm.lookup "Percent_Life_Used") = (150 : ℚ) := by decide
    exact roundtrip_feature _ (by rw [hm]; norm_num) (by decide)
      (by rw [hm]; exact toFixed2_eq_self _ 15000 (by norm_num)) v
  · have hm : jsOr100 (maxValuesNorm.lookup "Media_Errors") = (10 : ℚ) := by decide
    exact roundtrip_feature _ (by rw [hm]; norm_num) (by decide)
      (by rw [hm]; exact toFixed2_eq_self _ 1000 (by norm_num)) v
  · have hm : jsOr100 (maxValuesNorm.lookup "Unsafe_Shutdowns") = (10 : ℚ) := by decide
    exact roundtrip_feature _ (by rw [hm]; norm_num) (by decide)
      (by rw [hm]; exact toFixed2_eq_self _ 1000 (by norm_num)) v
  · have hm : jsOr100 (maxValuesNorm.lookup "CRC_Errors") = (5 : ℚ) := by decide
    exact roundtrip_feature _ (by rw [hm]; norm_num) (by decide)
      (by rw [hm]; exact toFixed2_eq_self _ 500 (by norm_num)) v
  · have hm : jsOr100 (maxValuesNorm.lookup "Read_Error_Rate") = (20 : ℚ) := by decide
    exact roundtrip_feature _ (by rw [hm]; norm_num) (by decide)
      (by rw [hm]; exact toFixed2_eq_self _ 2000 (by norm_num)) v
  · have hm : jsOr100 (maxValuesNorm.lookup "Write_Error_Rate") = (15 : ℚ) := by decide
    exact roundtrip_feature _ (by rw [hm]; norm_num) (by decide)
      (by rw [hm]; exact toFixed2_eq_self _ 1500 (by norm_num)) v

theorem normalize_denormalize_roundtrip_witness :
    getOriginalValueFromNormalized (normalizeByName 45 (some "Temperature_C"))
      (formatLabel "Temperature_C") = 45 := by
  have h := (normalize_denormalize_roundtrip "Temperature_C" (by decide) 45 (by norm_num)).1
    (by decide)
  rw [h]
  exact toFixed2_eq_self _ 4500 (by norm_num)

/-- C9: for every feature name in the fixed 10-entry catalog, formatting
the name to its display label and mapping the label back through the
inverse transform yields exactly the canonical lowercase/underscore form
of the name, and that key selects the same scale maximum in the
denormalization table as the name itself does in the normalization
table. -/
theorem formatLabel_inverse_spec (f : String) (hf : f ∈ catalogFeatures) :
    labelToKey (formatLabel f) = String.mk (f.data.map Char.toLower) ∧
    jsOr100 (maxValuesDenorm.lookup (labelToKey (formatLabel f))) =
      jsOr100 (maxValuesNorm.lookup f) := by
  rcases catalogFeatures_cases f hf with rfl | rfl | rfl | rfl | rfl | rfl | rfl | rfl | rfl | rfl
  all_goals exact ⟨by decide, by decide⟩

theorem formatLabel_inverse_spec_witness :
    labelToKey (formatLabel "CRC_Errors") = "crc_errors" ∧
    jsOr100 (maxValuesDenorm.lookup (labelToKey (formatLabel "CRC_Errors"))) =
      jsOr100 (maxValuesNorm.lookup "CRC_Errors") := by
  have h := formatLabel_inverse_spec "CRC_Errors" (by decide)
  exact ⟨h.1.trans (by decide), h.2⟩

lemma insertDesc_head (x : String × ℚ) (l : List (String × ℚ)) :
    (insertDesc x l).head? = some x ∨ (insertDesc x l).head? = l.head? := by
  cases l with
  | nil => left; rfl
  | cons h t =>
      rw [insertDesc]
      split
      · right; rfl
      · left; rfl

lemma insertDesc_sorted (x : String × ℚ) (l : List (String × ℚ))
    (hl : l.Chain' fun p q => q.2 ≤ p.2) :
    (insertDesc x l).Chain' fun p q => q.2 ≤ p.2 := by
  induction l with
  | nil => simp [insertDesc]
  | cons h t ih =>
      rw [insertDesc]
      have ht : t.Chain' fun p q => q.2 ≤ p.2 := (List.chain'_cons'.mp hl).2
      split
      · rename_i hlt
        rw [List.chain'_cons']
        refine ⟨fun y hy => ?_, ih ht⟩
        rcases insertDesc_head x t with he | he
        · rw [he] at hy
          simp only [Option.mem_def, Option.some.injEq] at hy
          rw [← hy]
          exact le_of_lt hlt
        · rw [he] at hy
          exact (List.chain'_cons'.mp hl).1 y hy
      · rename_i hge
        rw [List.chain'_cons']
        refine ⟨fun y hy => ?_, hl⟩
        simp only [List.head?_cons, Option.mem_def, Option.some.injEq] at hy
        rw [← hy]
        exact le_of_not_lt hge

lemma sortContributionsDesc_sorted (c : List (String × ℚ)) :
    (sortContributionsDesc c).Chain' fun p q => q.2 ≤ p.2 := by
  induction c with
  | nil => simp [sortContributionsDesc]
  | cons h t ih =>
      rw [sortContributionsDesc]
      exact insertDesc_sorted h _ ih

lemma filter_insertDesc (x : String × ℚ) (l : List (String × ℚ)) (v : ℚ) :
    (insertDesc x l).filter (fun p => p.2 == v) =
      (x :: l).filter fun p => p.2 == v := by
  induction l with
  | nil => rfl
  | cons h t ih =>
      rw [insertDesc]
      split
      · rename_i hlt
        by_cases hx : x.2 = v
        · have hh : ¬h.2 = v := by
            intro hh
            rw [hx] at hlt
            rw [hh] at hlt
            exact lt_irrefl v hlt
          simp [List.filter_cons, hx, hh, ih]
        · simp [List.filter_cons, hx, ih]
      · rfl

lemma filter_sortContributionsDesc (c : List (String × ℚ)) (v : ℚ) :
    (sortContributionsDesc c).filter (fun p => p.2 == v) =
      c.filter fun p => p.2 == v := by
  induction c with
  | nil => rfl
  | cons h t ih =>
      rw [sortContributionsDesc, filter_insertDesc]
      simp [List.filter_cons, ih]

/-- C3: topContributors returns at most 5 entries, in (weakly) descending
percentage order; the stable sort keeps entries with equal percentages in
the order the contributions mapping lists them (catalog declaration
order), which the filter identity expresses: for every percentage value,
the equal-percentage entries of the sorted list are exactly those of the
input, in the same order.  The concrete tie example from the spec is
included. -/
theorem topContributors_spec (c : List (String × ℚ)) :
    (topContributors c).length ≤ 5 ∧
    ((topContributors c).Chain' fun p q => q.2 ≤ p.2) ∧
    (∀ v : ℚ, (sortContributionsDesc c).filter (fun p => p.2 == v) =
      c.filter fun p => p.2 == v) ∧
    topContributors [("A", 80), ("B", 80), ("C", 10)] =
      [("A", 80), ("B", 80), ("C", 10)] := by
  refine ⟨?_, ?_, fun v => filter_sortContributionsDesc c v, by decide⟩
  · rw [topContributors, List.length_take]
    exact min_le_left _ _
  · exact (sortContributionsDesc_sorted c).take 5

/-- C1 counterexample: at the boundary value 50.0 the code assigns the
healthy band, not Warning as the claim states (the > 50 check is
strict). -/
theorem classifyStatus_50_not_warning :
    classifyStatus 50 = "status-healthy" ∧ classifyStatus 50 ≠ "status-warning" := by
  constructor
  · unfold classifyStatus
    norm_num
  · unfold classifyStatus
    norm_num
    decide

/-- C1 (amended): classify_status maps overall risk to bands with
thresholds > 70 → Danger and > 50 → Warning, else Healthy; at the
boundary values 49.9 → Healthy, 50.0 → Healthy, 70.0 → Warning and
70.1 → Danger. -/
theorem classifyStatus_spec :
    (∀ r : ℚ, (classifyStatus r = "status-danger" ↔ 70 < r) ∧
      (classifyStatus r = "status-warning" ↔ 50 < r ∧ r ≤ 70) ∧
      (classifyStatus r = "status-healthy" ↔ r ≤ 50)) ∧
    classifyStatus (49.9 : ℚ) = "status-healthy" ∧
    classifyStatus 50 = "status-healthy" ∧
    classifyStatus 70 = "status-warning" ∧
    classifyStatus (70.1 : ℚ) = "status-danger" := by
  refine ⟨fun r => ?_, ?_, ?_, ?_, ?_⟩
  · unfold classifyStatus
    split_ifs with h1 h2
    · exact ⟨iff_of_true rfl h1,
        iff_of_false (by decide) fun hc => absurd h1 (not_lt.mpr hc.2),
        iff_of_false (by decide) fun hc =>
          absurd h1 (not_lt.mpr (hc.trans (by norm_num)))⟩
    · exact ⟨iff_of_false (by decide) h1,
        iff_of_true rfl ⟨h2, not_lt.mp h1⟩,
        iff_of_false (by decide) fun hc => absurd h2 (not_lt.mpr hc)⟩
    · exact ⟨iff_of_false (by decide) h1,
        iff_of_false (by decide) fun hc => h2 hc.1,
        iff_of_true rfl (not_lt.mp h2)⟩
  · unfold classifyStatus
    norm_num
  · unfold classifyStatus
    norm_num
  · unfold classifyStatus
    norm_num
  · unfold classifyStatus
    norm_num

/-- C2 counterexample: a snapshot with the negative value -5 passes
validation and proceeds to normalization, and a non-numeric (NaN) field is
silently coerced to 0 rather than refused. -/
theorem pipeline_accepts_invalid :
    pipelineAccepts [("Temperature_C", JSNum.num (-5))] = true ∧
    pipelineAccepts [("Media_Errors", JSNum.nan)] = true ∧
    collectInputData [("Media_Errors", JSNum.nan)] =
      [("Media_Errors", JSNum.num 0)] := by
  refine ⟨by decide, by decide, by decide⟩

lemma validate_collect_elem (x : JSNum) :
    (!jsIsNaN (if jsIsNaN x then JSNum.num 0 else x) &&
      jsIsFinite (if jsIsNaN x then JSNum.num 0 else x)) = true ↔
      x ≠ JSNum.posInf ∧ x ≠ JSNum.negInf := by
  cases x <;> simp [jsIsNaN, jsIsFinite]

/-- C2 (amended): the pipeline refuses a snapshot exactly when it contains
an infinite value; a NaN (non-numeric) value is coerced to 0 by
collectInputData before validation, and negative values pass validation
and reach normalization. -/
theorem pipeline_validation_spec (raw : List (String × JSNum)) :
    pipelineAccepts raw = true ↔
      ∀ p ∈ raw, p.2 ≠ JSNum.posInf ∧ p.2 ≠ JSNum.negInf := by
  unfold pipelineAccepts validateInputs collectInputData
  rw [List.all_map, List.all_eq_true]
  exact forall₂_congr fun p _ => validate_collect_elem p.2

/-- C6: the overall risk equals the maximum of the four per-model risks:
it bounds each of them and coincides with one of them, so a single
high-risk model is never diluted by averaging; the spec's worked example
(20, 72, 10, 30 → 72) is included. -/
theorem overallRisk_is_max :
    (∀ w t p c : ℚ, w ≤ overallRisk w t p c ∧ t ≤ overallRisk w t p c ∧
      p ≤ overallRisk w t p c ∧ c ≤ overallRisk w t p c ∧
      (overallRisk w t p c = w ∨ overallRisk w t p c = t ∨
        overallRisk w t p c = p ∨ overallRisk w t p c = c)) ∧
    overallRisk 20 72 10 30 = 72 := by
  constructor
  · intro w t p c
    unfold overallRisk
    refine ⟨?_, ?_, ?_, ?_, ?_⟩
    · simp [le_max_iff]
    · simp [le_max_iff]
    · simp [le_max_iff]
    · simp [le_max_iff]
    · rcases max_choice (max (max w t) p) c with h | h
      · rcases max_choice (max w t) p with h2 | h2
        · rcases max_choice w t with h3 | h3
          · left
            rw [h, h2, h3]
          · right; left
            rw [h, h2, h3]
        · right; right; left
          rw [h, h2]
      · right; right; right
        exact h
  · unfold overallRisk
    norm_num

/-- C7: the summary icon is chosen solely by the threshold
overall_risk ≥ 50 — check-mark strictly below 50, warning triangle at or
above 50 — and at exactly 50 it disagrees with the text banding, which
still reports the healthy band there: the two are computed
independently. -/
theorem summaryStatusIcon_spec :
    (∀ r : ℚ, (summaryStatusIcon r = "fa-check-circle" ↔ r < 50) ∧
      (summaryStatusIcon r = "fa-exclamation-triangle" ↔ 50 ≤ r)) ∧
    summaryStatusIcon 50 = "fa-exclamation-triangle" ∧
    classifyStatus 50 = "status-healthy" := by
  refine ⟨fun r => ?_, ?_, ?_⟩
  · unfold summaryStatusIcon
    split_ifs with h
    · exact ⟨iff_of_false (by decide) (not_lt.mpr h), iff_of_true rfl h⟩
    · exact ⟨iff_of_true rfl (not_le.mp h), iff_of_false (by decide) h⟩
  · unfold summaryStatusIcon
    norm_num
  · unfold classifyStatus
    norm_num

/-- C8: a missing or empty contributions mapping renders the explicit
"no data" placeholder; the embedding is a total function, so this is a
defined outcome and never a runtime failure. -/
theorem displayTopContributions_empty_spec :
    displayTopContributions none = ContributionsDisplay.noData ∧
    displayTopContributions (some []) = ContributionsDisplay.noData := by
  exact ⟨rfl, rfl⟩

/-- C10: when the radar charts are initialized and when the form is reset,
every default value is normalized with index 0, i.e. against the maximum
of the first catalog feature (Power_On_Hours, 60000), whatever its own
feature is; only updateRadarChart normalizes each value with its own
positional index. -/
theorem radarInit_uses_index_zero (defaults : List (String × ℚ))
    (h : (defaults.map Prod.fst).head? = some "Power_On_Hours") :
    initialRadarData defaults =
      defaults.map (fun p => min ((p.2 / 60000) * 100) 100) ∧
    ∀ (inputData : List (String × ℚ)) (featureNames : List String),
      updateRadarData inputData featureNames =
        (inputData.map Prod.snd).mapIdx fun index value =>
          normalizeByName value (featureNames.get? index) := by
  constructor
  · unfold initialRadarData
    apply List.map_congr_left
    intro p hp
    unfold normalizeFeatureValue
    rw [List.get?_zero, h]
    rw [normalizeByName_some]
    have hm : jsOr100 (maxValuesNorm.lookup "Power_On_Hours") = (60000 : ℚ) := by decide
    rw [hm]
  · intro inputData featureNames
    rfl

theorem radarInit_uses_index_zero_witness :
    initialRadarData [("Power_On_Hours", 15000), ("Temperature_C", 95 / 2)] =
      [min ((15000 / 60000) * 100) 100, min ((95 / 2 / 60000) * 100) 100] := by
  have h := (radarInit_uses_index_zero
    [("Power_On_Hours", 15000), ("Temperature_C", 95 / 2)] (by decide)).1
  rw [h]
  rfl
